import Mathlib

/-!
Verification of the DeepSeek-OCR backend against its design specification.

This file shallowly embeds the pure computational core of the repository:

* `backend/main.py`: the grounding-tag parser (`DET_BLOCK`, `parse_detections`,
  `clean_grounding_text`), the page-ordering logic of `pdf_to_images`, and the
  per-page/aggregate response assembly of `ocr_inference`;
* `backend/format_converter.py`: `DocumentConverter.to_markdown`, `to_html`,
  `to_docx`, `_is_markdown`, `_add_formatted_text_to_doc`, `_add_table_to_doc`.

Strings are modeled as `List Char` internally (`String` at the boundaries).
Python regular-expression matching for the two fixed patterns in the source is
implemented directly: leftmost match, lazy `.*?` for the label, greedy `.*`
for the bracketed coordinate payload, both with DOTALL semantics.  Python
`ast.literal_eval` is modeled on the sublanguage of (possibly negative)
integer literals and nested list literals; every other payload is a parse
failure, which matches the behavior of `literal_eval` on the inputs relevant
here (identifiers, stray tag text, etc. all raise).  Python float arithmetic
in coordinate scaling is modeled as IEEE binary64: doubles are the exact
rationals they denote and every operation rounds its exact rational result
to nearest, ties to even (`floatRound`), with `none` for the infinities;
Python `int(...)` truncation toward zero is `Int.tdiv`.  The external recognition
engine, the PDF rendering library, the markdown-rendering library and base64
decoding are out-of-scope collaborators and enter as abstract parameters.
-/

set_option maxRecDepth 8000

namespace DSOCR

/-- Python `\s` / `str.strip()` whitespace on the ASCII range (space, tab,
newline, carriage return, vertical tab, form feed). -/
def pyIsSpace (c : Char) : Bool :=
  c = ' ' || c = '\t' || c = '\n' || c = '\r' || c = '\x0b' || c = '\x0c'

/-- Python `str.strip()`: drop leading and trailing whitespace. -/
def pyStrip (l : List Char) : List Char :=
  ((l.dropWhile pyIsSpace).reverse.dropWhile pyIsSpace).reverse

/-- Suffix following the first occurrence of `pat` (non-overlapping,
left-to-right scan), `none` if `pat` does not occur. -/
def subAfter (pat : List Char) : List Char → Option (List Char)
  | [] => if pat.isEmpty then some [] else none
  | c :: rest =>
    if pat.isPrefixOf (c :: rest) then some ((c :: rest).drop pat.length)
    else subAfter pat rest

/-- Substring containment test. -/
def containsSub (pat l : List Char) : Bool := (subAfter pat l).isSome

/-- Split at the first occurrence of `sep` (which is removed), if any. -/
def splitOnce (sep : List Char) : List Char → Option (List Char × List Char)
  | [] => none
  | c :: rest =>
    if sep.isPrefixOf (c :: rest) then some ([], (c :: rest).drop sep.length)
    else
      match splitOnce sep rest with
      | some (p, q) => some (c :: p, q)
      | none => none

/-- Fueled worker for `splitSub`. -/
def splitSubAux (sep : List Char) : Nat → List Char → List (List Char)
  | 0, s => [s]
  | fuel + 1, s =>
    match splitOnce sep s with
    | some (p, q) => p :: splitSubAux sep fuel q
    | none => [s]

/-- Python `str.split(sep)` for a non-empty separator string. -/
def splitSub (sep s : List Char) : List (List Char) := splitSubAux sep (s.length + 1) s

/-- Python `str.split(ch)` for a single-character separator. -/
def splitCh (ch : Char) : List Char → List (List Char)
  | [] => [[]]
  | c :: rest =>
    match splitCh ch rest with
    | h :: t => if c = ch then [] :: h :: t else (c :: h) :: t
    | [] => [[c]]

/-- Fueled worker for `replaceAll`. -/
def replaceAllAux (pat repl : List Char) : Nat → List Char → List Char
  | 0, s => s
  | fuel + 1, s =>
    match s with
    | [] => []
    | c :: rest =>
      if pat.isPrefixOf (c :: rest) then
        repl ++ replaceAllAux pat repl fuel ((c :: rest).drop pat.length)
      else c :: replaceAllAux pat repl fuel rest

/-- Python `str.replace(pat, repl)` for a non-empty pattern: replace every
non-overlapping occurrence, scanning left to right, never rescanning the
replacement text. -/
def replaceAll (pat repl s : List Char) : List Char := replaceAllAux pat repl (s.length + 1) s

/-- Python `str.count(ch)` for a single character. -/
def countCh (ch : Char) (l : List Char) : Nat := (l.filter (fun c => c == ch)).length

/-- Python `sep.join(parts)`. -/
def pyJoin (sep : String) : List String → String
  | [] => ""
  | [s] => s
  | s :: rest => s ++ sep ++ pyJoin sep rest

/-! ### The grounding-tag grammar of `backend/main.py`

The source compiles (with `re.DOTALL`)

  `DET_BLOCK = <\|ref\|>(?P<label>.*?)<\|/ref\|>\s*<\|det\|>\s*(?P<coords>\[.*\])\s*<\|/det\|>`

and iterates it with `finditer`.  The functions below implement exactly this
pattern's matching: the label group is lazy (shortest first, extended on
continuation failure), the bracketed coordinate group is greedy (the final
`]` is the last one that is still followed by optional whitespace and the
closing `<|/det|>`), `.` matches newlines, and `finditer` returns
non-overlapping leftmost matches, resuming after each match's end. -/

def refTag : List Char := "<|ref|>".data

def endRefTag : List Char := "<|/ref|>".data

def detTag : List Char := "<|det|>".data

def endDetTag : List Char := "<|/det|>".data

def groundingTag : List Char := "<|grounding|>".data

/-- Match `\s*<\|/det\|>` at the head of `l`; return the suffix after the tag. -/
def afterDetClose (l : List Char) : Option (List Char) :=
  let l1 := l.dropWhile pyIsSpace
  if endDetTag.isPrefixOf l1 then some (l1.drop 8) else none

/-- Greedy search for the last `]` in `l` that is followed by
`\s*<\|/det\|>`.  Returns the body up to and including that `]` together with
the remainder after the closing tag. -/
def lastClose : List Char → Option (List Char × List Char)
  | [] => none
  | c :: rest =>
    match lastClose rest with
    | some (body, rem) => some (c :: body, rem)
    | none =>
      if c = ']' then
        match afterDetClose rest with
        | some rem => some ([']'], rem)
        | none => none
      else none

/-- Match `\s*<\|det\|>\s*\[.*\]\s*<\|/det\|>` at the head of `u`; return the
greedy bracketed coordinate group (brackets included) and the remainder. -/
def afterRef (u : List Char) : Option (List Char × List Char) :=
  let u1 := u.dropWhile pyIsSpace
  if detTag.isPrefixOf u1 then
    let u2 := (u1.drop 7).dropWhile pyIsSpace
    match u2 with
    | '[' :: tail =>
      match lastClose tail with
      | some (body, rem) => some ('[' :: body, rem)
      | none => none
    | _ => none
  else none

/-- Lazy label matching: `acc` holds the (reversed) label consumed so far;
at each occurrence of `<|/ref|>` try to complete the match, extending the
label past the occurrence when the continuation fails. -/
def tryLabel (acc : List Char) : List Char → Option (List Char × List Char × List Char)
  | [] => none
  | c :: rest =>
    if endRefTag.isPrefixOf (c :: rest) then
      match afterRef ((c :: rest).drop 8) with
      | some (coords, rem) => some (acc.reverse, coords, rem)
      | none => tryLabel (c :: acc) rest
    else tryLabel (c :: acc) rest

/-- Leftmost match of `DET_BLOCK`: returns the text before the match, the
label group, the coordinate group and the text after the match. -/
def findBlock : List Char → Option (List Char × List Char × List Char × List Char)
  | [] => none
  | c :: rest =>
    match (if refTag.isPrefixOf (c :: rest) then tryLabel [] ((c :: rest).drop 7) else none) with
    | some (label, coords, rem) => some ([], label, coords, rem)
    | none =>
      match findBlock rest with
      | some (pre, label, coords, rem) => some (c :: pre, label, coords, rem)
      | none => none

/-- Fueled worker for `detFinditer`. -/
def finditerAux : Nat → List Char → List (List Char × List Char)
  | 0, _ => []
  | fuel + 1, s =>
    match findBlock s with
    | some (_, label, coords, rem) => (label, coords) :: finditerAux fuel rem
    | none => []

/-- Model of `DET_BLOCK.finditer`: the (label, coords) groups of all non-overlapping
leftmost matches.  Every match consumes at least one character, so `s.length`
fuel is always sufficient. -/
def detFinditer (s : List Char) : List (List Char × List Char) := finditerAux s.length s

/-- Fueled worker for the `re.sub` in `clean_grounding_text`: each match of
the detection-block pattern is replaced by its label group. -/
def cleanAux : Nat → List Char → List Char
  | 0, s => s
  | fuel + 1, s =>
    match findBlock s with
    | some (pre, label, _, rem) => pre ++ label ++ cleanAux fuel rem
    | none => s

/-! ### IEEE binary64 arithmetic

The scaling expression of the source, `int(float(box[0]) / 999 * image_width)`,
is evaluated by CPython in IEEE binary64 ("double") arithmetic, whose results
differ from the exact rational value by up to one unit in the last place:
for example `int(63/999*111)` is 6 although the exact value is 7.  The
functions below model binary64 values as the exact rationals they denote and
implement correct rounding to nearest, ties to even, with gradual underflow;
`none` models overflow to infinity.  Every double produced by a correctly
rounded operation on finite doubles is exactly `floatRound` of the exact
rational result, so the pipeline below reproduces the program's arithmetic
bit for bit on finite values. -/

/-- Floor of a rational as an integer (the denominator is positive). -/
def ratFloor (q : ℚ) : Int := q.num / (q.den : Int)

/-- Truncation of a rational toward zero — Python `int(...)` on a float. -/
def pyTrunc (q : ℚ) : Int := Int.tdiv q.num (q.den : Int)

/-- Round a nonnegative rational to an integer, ties to even. -/
def rhe (x : ℚ) : Int :=
  if x - (ratFloor x : ℚ) < 1 / 2 then ratFloor x
  else if 1 / 2 < x - (ratFloor x : ℚ) then ratFloor x + 1
  else if ratFloor x % 2 = 0 then ratFloor x else ratFloor x + 1

/-- Powers of two with an integer exponent. -/
def qpow2 (e : Int) : ℚ :=
  if 0 ≤ e then ((2 ^ e.toNat : Nat) : ℚ) else (((2 ^ (-e).toNat : Nat) : ℚ))⁻¹

/-- `Nat.log2` by structural recursion on a fuel bound (every number in the
rounding pipeline is far below `2 ^ 4000`). -/
def log2fuel : Nat → Nat → Nat
  | 0, _ => 0
  | f + 1, n => if n ≤ 1 then 0 else log2fuel f (n / 2) + 1

/-- The largest `e` with `2 ^ e ≤ a`, for positive `a`: the candidate from
the numerator and denominator bit lengths is off by at most one. -/
def qlog2 (a : ℚ) : Int :=
  if qpow2 ((log2fuel 4000 a.num.toNat : Int) - (log2fuel 4000 a.den : Int)) ≤ a
  then (log2fuel 4000 a.num.toNat : Int) - (log2fuel 4000 a.den : Int)
  else (log2fuel 4000 a.num.toNat : Int) - (log2fuel 4000 a.den : Int) - 1

/-- The scaling exponent of the unit in the last place at magnitude `a`:
`52 - exponent`, clamped for the subnormal range. -/
def ulpShift (a : ℚ) : Int := min (52 - qlog2 a) 1074

/-- Round a positive rational to the binary64 grid at its own magnitude. -/
def floatUnsigned (a : ℚ) : ℚ :=
  (rhe (a * qpow2 (ulpShift a)) : ℚ) * qpow2 (-(ulpShift a))

/-- Round a rational to the nearest IEEE binary64 value (ties to even,
gradual underflow); `none` models overflow to an infinity. -/
def floatRound (q : ℚ) : Option ℚ :=
  if q = 0 then some 0
  else if ((2 ^ 1024 : Nat) : ℚ) ≤ floatUnsigned |q| then none
  else some (if q < 0 then -floatUnsigned |q| else floatUnsigned |q|)

/-- Conversion of a Python int to a double — `float(n)` — which raises
`OverflowError` beyond the binary64 range. -/
def floatOfInt (n : Int) : Option ℚ := floatRound (n : ℚ)

/-! ### Python literals (`ast.literal_eval` on the coordinate payloads)

The modeled sublanguage: optionally signed decimal integer literals, float
literals (`digits.digits`, `.digits`, `digits.`, each with an optional
decimal exponent), list literals, tuple literals (with Python's rule that a
parenthesized single element without a trailing comma is not a tuple), with
whitespace and trailing commas as Python allows them.  A float literal
denotes the binary64 value nearest its decimal value (an overflowing literal
denotes an infinity, carried as `none`).  Other literal forms Python would
accept — strings, dicts, sets, booleans, `None`, complex numbers, hex/octal
/binary integers, digit-group underscores, nested unary signs — are treated
as parse failures, as are all genuinely malformed payloads. -/

/-- Python values produced by `ast.literal_eval` on the coordinate payloads.
A float carries the exact rational denoted by its binary64 value, `none`
for an infinity. -/
inductive PyVal where
  | int (n : Int)
  | float (val : Option ℚ)
  | list (elems : List PyVal)
  | tuple (elems : List PyVal)

/-- Numeric value of a digit run. -/
def digitsVal (ds : List Char) : Nat := ds.foldl (fun n c => 10 * n + (c.toNat - 48)) 0

/-- Apply a decimal exponent to a mantissa. -/
def applyExp (m : ℚ) (e : Int) : ℚ :=
  if 0 ≤ e then m * ((10 ^ e.toNat : Nat) : ℚ) else m / ((10 ^ (-e).toNat : Nat) : ℚ)

/-- Parse the signed digit run of a decimal exponent part. -/
def parseExp (s : List Char) : Option (Int × List Char) :=
  match s with
  | '-' :: r =>
    if (r.takeWhile Char.isDigit).isEmpty then none
    else some (-(digitsVal (r.takeWhile Char.isDigit) : Int), r.drop (r.takeWhile Char.isDigit).length)
  | '+' :: r =>
    if (r.takeWhile Char.isDigit).isEmpty then none
    else some ((digitsVal (r.takeWhile Char.isDigit) : Int), r.drop (r.takeWhile Char.isDigit).length)
  | _ =>
    if (s.takeWhile Char.isDigit).isEmpty then none
    else some ((digitsVal (s.takeWhile Char.isDigit) : Int), s.drop (s.takeWhile Char.isDigit).length)

/-- Finish a float literal: round the decimal value to binary64. -/
def mkFloat (mant : ℚ) (rest : List Char) : Option (PyVal × List Char) :=
  match rest with
  | 'e' :: r =>
    match parseExp r with
    | some (e, r2) => some (PyVal.float (floatRound (applyExp mant e)), r2)
    | none => none
  | 'E' :: r =>
    match parseExp r with
    | some (e, r2) => some (PyVal.float (floatRound (applyExp mant e)), r2)
    | none => none
  | _ => some (PyVal.float (floatRound mant), rest)

/-- Parse an unsigned numeric literal: an integer (Python 3 rejects leading
zeros in a non-zero integer literal), or a point/exponent float (where
leading zeros are allowed). -/
def parseUNum (s : List Char) : Option (PyVal × List Char) :=
  match s.drop (s.takeWhile Char.isDigit).length with
  | '.' :: rest1 =>
    if (s.takeWhile Char.isDigit).isEmpty && (rest1.takeWhile Char.isDigit).isEmpty then none
    else
      mkFloat ((digitsVal (s.takeWhile Char.isDigit) : ℚ)
          + (digitsVal (rest1.takeWhile Char.isDigit) : ℚ)
            / ((10 ^ (rest1.takeWhile Char.isDigit).length : Nat) : ℚ))
        (rest1.drop (rest1.takeWhile Char.isDigit).length)
  | 'e' :: r =>
    if (s.takeWhile Char.isDigit).isEmpty then none
    else
      match parseExp r with
      | some (e, r2) =>
        some (PyVal.float (floatRound (applyExp (digitsVal (s.takeWhile Char.isDigit) : ℚ) e)), r2)
      | none => none
  | 'E' :: r =>
    if (s.takeWhile Char.isDigit).isEmpty then none
    else
      match parseExp r with
      | some (e, r2) =>
        some (PyVal.float (floatRound (applyExp (digitsVal (s.takeWhile Char.isDigit) : ℚ) e)), r2)
      | none => none
  | rest =>
    if (s.takeWhile Char.isDigit).isEmpty then none
    else if (s.takeWhile Char.isDigit).length > 1 && (s.takeWhile Char.isDigit).headI == '0'
    then none
    else some (PyVal.int (digitsVal (s.takeWhile Char.isDigit)), rest)

/-- Negation of a parsed numeric literal (negating a double is exact; the
negation of an infinity is an infinity). -/
def pyNeg : PyVal → PyVal
  | PyVal.int n => PyVal.int (-n)
  | PyVal.float (some q) => PyVal.float (some (-q))
  | v => v

/-- Parse an optionally signed numeric literal. -/
def parsePyNum (s : List Char) : Option (PyVal × List Char) :=
  match s with
  | '-' :: rest =>
    match parseUNum (rest.dropWhile pyIsSpace) with
    | some (v, r) => some (pyNeg v, r)
    | none => none
  | '+' :: rest => parseUNum (rest.dropWhile pyIsSpace)
  | _ => parseUNum s

mutual

/-- Parse one literal (number, list or tuple), skipping leading whitespace. -/
def parsePy : Nat → List Char → Option (PyVal × List Char)
  | 0, _ => none
  | fuel + 1, s =>
    match s.dropWhile pyIsSpace with
    | '[' :: rest => parsePyItems fuel rest []
    | '(' :: rest => parsePyTupleItems fuel rest [] false
    | s1 => parsePyNum s1

/-- Parse the comma-separated elements of a list literal up to the closing
bracket; trailing commas are allowed, as in Python. -/
def parsePyItems : Nat → List Char → List PyVal → Option (PyVal × List Char)
  | 0, _, _ => none
  | fuel + 1, s, acc =>
    match s.dropWhile pyIsSpace with
    | ']' :: rest => some (PyVal.list acc.reverse, rest)
    | s1 =>
      match parsePy fuel s1 with
      | some (v, r) =>
        match r.dropWhile pyIsSpace with
        | ',' :: r2 => parsePyItems fuel r2 (v :: acc)
        | ']' :: r2 => some (PyVal.list (v :: acc).reverse, r2)
        | _ => none
      | none => none

/-- Parse the elements of a parenthesized literal; a lone element closed
without any comma is the element itself, not a one-tuple. -/
def parsePyTupleItems : Nat → List Char → List PyVal → Bool → Option (PyVal × List Char)
  | 0, _, _, _ => none
  | fuel + 1, s, acc, sawComma =>
    match s.dropWhile pyIsSpace with
    | ')' :: rest =>
      match acc, sawComma with
      | [v], false => some (v, rest)
      | _, _ => some (PyVal.tuple acc.reverse, rest)
    | s1 =>
      match parsePy fuel s1 with
      | some (v, r) =>
        match r.dropWhile pyIsSpace with
        | ',' :: r2 => parsePyTupleItems fuel r2 (v :: acc) true
        | ')' :: r2 =>
          match acc with
          | [] => some (v, r2)
          | _ => some (PyVal.tuple (v :: acc).reverse, r2)
        | _ => none
      | none => none

end

/-- Model of `ast.literal_eval` on the modeled sublanguage: a single literal
with nothing but whitespace around it; anything else raises (here: `none`). -/
def literal_eval (s : List Char) : Option PyVal :=
  match parsePy (2 * s.length + 2) s with
  | some (v, rest) => if (rest.dropWhile pyIsSpace).isEmpty then some v else none
  | none => none

/-! ### `parse_detections` and `clean_grounding_text` (`backend/main.py`) -/

/-- A parsed detection: a label and one box of four pixel coordinates. -/
structure Detection where
  label : String
  box : List Int
deriving DecidableEq

/-- One coordinate of `parse_detections`: the source computes
`int(float(raw) / 999 * dim)` in IEEE binary64 arithmetic — `rawF` is the
double value of the payload number, 999 and the image dimension convert to
doubles, the division and the multiplication each round once, and `int(...)`
truncates the finite result toward zero.  `none` is the raised-exception
path (an infinite or overflowing intermediate), which the enclosing
`except` turns into a block abort. -/
def scaleCoord (rawF : ℚ) (dim : Nat) : Option Int :=
  match floatRound (rawF / 999) with
  | none => none
  | some t1 =>
    match floatRound ((dim : ℚ)) with
    | none => none
    | some dimF =>
      match floatRound (t1 * dimF) with
      | none => none
      | some t2 => some (pyTrunc t2)

/-- Python `float(x)` on a parsed payload element: an int converts (raising
`OverflowError` beyond the double range), a float passes through (`none`
for an infinity, whose exception surfaces at the subsequent `int(...)`),
and a list or tuple raises `TypeError`. -/
def floatVal : PyVal → Option ℚ
  | PyVal.int n => floatOfInt n
  | PyVal.float v => v
  | PyVal.list _ => none
  | PyVal.tuple _ => none

/-- The `isinstance(n, (int, float))` test of the source. -/
def isNumVal : PyVal → Bool
  | PyVal.int _ => true
  | PyVal.float _ => true
  | PyVal.list _ => false
  | PyVal.tuple _ => false

/-- Conversion of one box of at least four elements: `none` when one of the
four conversions raises (which aborts the whole block loop); `some` is the
four scaled pixel coordinates. -/
def boxConv (W H : Nat) (b0 b1 b2 b3 : PyVal) : Option (Int × Int × Int × Int) :=
  match floatVal b0, floatVal b1, floatVal b2, floatVal b3 with
  | some f0, some f1, some f2, some f3 =>
    match scaleCoord f0 W, scaleCoord f1 H, scaleCoord f2 W, scaleCoord f3 H with
    | some x1, some y1, some x2, some y2 => some (x1, y1, x2, y2)
    | _, _, _, _ => none
  | _, _, _, _ => none

/-- The per-box loop of `parse_detections`: an element that is not a list or
tuple of length at least 4 is skipped individually; a conversion failure
inside a box raises, aborting the rest of this block's loop (boxes already
appended are kept, matching the `try`/`except` placement in the source). -/
def convertBoxes (label : String) (W H : Nat) : List PyVal → List Detection
  | [] => []
  | PyVal.int _ :: rest => convertBoxes label W H rest
  | PyVal.float _ :: rest => convertBoxes label W H rest
  | PyVal.list l :: rest =>
    match l with
    | b0 :: b1 :: b2 :: b3 :: _ =>
      match boxConv W H b0 b1 b2 b3 with
      | some (x1, y1, x2, y2) => ⟨label, [x1, y1, x2, y2]⟩ :: convertBoxes label W H rest
      | none => []
    | _ => convertBoxes label W H rest
  | PyVal.tuple l :: rest =>
    match l with
    | b0 :: b1 :: b2 :: b3 :: _ =>
      match boxConv W H b0 b1 b2 b3 with
      | some (x1, y1, x2, y2) => ⟨label, [x1, y1, x2, y2]⟩ :: convertBoxes label W H rest
      | none => []
    | _ => convertBoxes label W H rest

/-- Processing of one `DET_BLOCK` match inside `parse_detections`: strip the
groups, `literal_eval` the coordinate payload, normalize a flat 4-number
list to a single box, convert each box; a payload that is not a list (or
fails to parse) yields no detections for the block (the `except` arm). -/
def processBlock (W H : Nat) (labelRaw coordsRaw : List Char) : List Detection :=
  match literal_eval (pyStrip coordsRaw) with
  | some (PyVal.list l) =>
    if l.length == 4 && l.all isNumVal then convertBoxes ⟨pyStrip labelRaw⟩ W H [PyVal.list l]
    else convertBoxes ⟨pyStrip labelRaw⟩ W H l
  | some _ => []
  | none => []

/-- Embedding of `parse_detections(text, image_width, image_height)` of `backend/main.py`. -/
def parse_detections (text : String) (W H : Nat) : List Detection :=
  ((detFinditer text.data).map (fun p => processBlock W H p.1 p.2)).flatten

/-- Embedding of `clean_grounding_text(text)` of `backend/main.py`: substitute every
detection-block match by its label group, remove every `<|grounding|>`
token, then strip the result. -/
def clean_grounding_text (text : String) : String :=
  ⟨pyStrip (replaceAll groundingTag [] (cleanAux text.data.length text.data))⟩

/-! ### `pdf_to_images` (`backend/main.py`): order-preserving page collection

Rendering a page is the external PDF library (`fitz`), abstracted as a pure
function `render` from the page index; `_convert_pdf_page` returns the pair
`(page_num, image)`.  The thread pool's completion order is abstracted as an
arbitrary permutation `completed` of the per-page results. -/

/-- The list of `(page index, render)` pairs the workers are to produce, one
per page of the document. -/
def renderResults {α : Type} (render : Nat → α) (n : Nat) : List (Nat × α) :=
  (List.range n).map (fun i => (i, render i))

/-- The `results.sort(key=lambda x: x[0])` call: Python's stable sort by
page index, modeled by insertion sort on the first component. -/
def sortByPage {α : Type} (l : List (Nat × α)) : List (Nat × α) :=
  List.insertionSort (fun a b => a.1 ≤ b.1) l

/-- Embedding of `pdf_to_images`: a single-page document renders inline without the pool;
otherwise the collected `(page index, image)` results — in whatever order the
workers completed — are sorted by page index and the images extracted. -/
def pdf_to_images {α : Type} (render : Nat → α) (page_count : Nat)
    (completed : List (Nat × α)) : List α :=
  if page_count = 1 then [render 0]
  else (sortByPage completed).map Prod.snd

/-! ### Per-page results and response assembly (`ocr_inference`, `backend/main.py`)

The engine invocation and response normalization per page are external; the
fields each loop iteration computes (display text, raw text, parsed boxes,
image dimensions) enter as abstract `PageData`.  The loop numbers pages
`idx + 1` for PDFs and `None` otherwise, and the end of the route combines
the page results into the JSON response. -/

/-- The per-page fields computed by the processing loop, before numbering. -/
structure PageData where
  text : String
  raw_text : String
  boxes : List Detection
  w : Nat
  h : Nat
deriving DecidableEq, Inhabited

/-- One entry of `all_results`. -/
structure PageResult where
  page : Option Nat
  text : String
  raw_text : String
  boxes : List Detection
  w : Nat
  h : Nat
deriving DecidableEq, Inhabited

/-- The `page_result` assembly inside the loop: `page = idx + 1 if is_pdf
else None`, other fields passed through. -/
def make_page_results (is_pdf : Bool) (pds : List PageData) : List PageResult :=
  pds.enum.map (fun p =>
    ⟨if is_pdf then some (p.1 + 1) else none, p.2.text, p.2.raw_text, p.2.boxes, p.2.w, p.2.h⟩)

/-- The JSON response body (the request-echoing `metadata` object is not
modeled; `pages` is present only in the multi-page branch). -/
structure OcrResponse where
  success : Bool
  text : String
  raw_text : String
  boxes : List Detection
  w : Nat
  h : Nat
  is_pdf : Bool
  pages : Option (List PageResult)
deriving DecidableEq

/-- Formatting of `page_result["page"]` inside the f-string separators
(Python prints `None` for a missing page number). -/
def pageNumStr : Option Nat → String
  | some n => toString n
  | none => "None"

/-- The response-combination step at the end of `ocr_inference`: for a PDF
with more than one page result, join the per-page texts with page-separator
lines, empty the top-level box list, take the first page's dimensions and
retain `all_results`; otherwise pass the lone page result's fields through
(`all_results[0]`; the source would raise on an empty list, the model
defaults). -/
def combine_results (is_pdf : Bool) (rs : List PageResult) : OcrResponse :=
  if is_pdf && rs.length > 1 then
    ⟨true,
      pyJoin "\n" (rs.map (fun r => "\n--- Page " ++ pageNumStr r.page ++ " ---\n" ++ r.text)),
      pyJoin "\n" (rs.map (fun r => "\n--- Page " ++ pageNumStr r.page ++ " ---\n" ++ r.raw_text)),
      [], (rs.headI).w, (rs.headI).h, true, some rs⟩
  else
    ⟨true, rs.headI.text, rs.headI.raw_text, rs.headI.boxes, rs.headI.w, rs.headI.h, is_pdf, none⟩

/-! ### `DocumentConverter` (`backend/format_converter.py`)

`pages_content` entries carry a text field and an optional base64 image list
(`none` models a dict without the `images` key).  The markdown-rendering
library (`markdown.markdown(text, extensions=['tables', 'fenced_code'])`)
and base64 decoding are external and abstracted as parameters `mdRender` and
`decodeOk`.  The DOCX `Document` is modeled as the ordered list of block
elements added to it; purely presentational run properties (fonts, sizes,
alignment, the bold header row, the table style) are not part of the block
model. -/

/-- One `pages_content` entry. -/
structure ExportPage where
  text : String
  images : Option (List String)
deriving DecidableEq, Inhabited

/-- The per-page placeholder token `[IMAGE_{idx}]`. -/
def imagePlaceholder (i : Nat) : List Char := ("[IMAGE_" ++ toString i ++ "]").data

/-- The image-substitution loop of `to_markdown`. -/
def mdSubstText (include_images : Bool) (p : ExportPage) : String :=
  match include_images, p.images with
  | true, some imgs =>
    ⟨(imgs.enum).foldl
      (fun t q => replaceAll (imagePlaceholder q.1)
        ("![Image " ++ toString (q.1 + 1) ++ "](data:image/jpeg;base64," ++ q.2 ++ ")").data t)
      p.text.data⟩
  | _, _ => p.text

/-- Embedding of `DocumentConverter.to_markdown`: per page a `# Page …` header line, the
(image-substituted) text and a `---` separator, all joined with newlines. -/
def to_markdown (pages : List ExportPage) (include_images : Bool) : String :=
  pyJoin "\n" ((pages.enum.map (fun q =>
    ["# Page " ++ toString (q.1 + 1) ++ "\n", mdSubstText include_images q.2, "\n\n---\n\n"])).flatten)

/-- Anchored tail of `^#+\s`: after the first `#`, skip further `#`s and
require a whitespace character (which may be the line's newline). -/
def hashHeaderTail : List Char → Bool
  | [] => false
  | c :: rest => if c = '#' then hashHeaderTail rest else pyIsSpace c

/-- Pattern `^#+\s` anchored at a line start. -/
def hashHeaderAt : List Char → Bool
  | '#' :: rest => hashHeaderTail rest
  | _ => false

/-- Pattern `^\*\s` anchored at a line start. -/
def starListAt : List Char → Bool
  | '*' :: c :: _ => pyIsSpace c
  | _ => false

/-- Tail of `^\d+\.\s` after its first digit. -/
def numListTail : List Char → Bool
  | [] => false
  | c :: rest =>
    if c.isDigit then numListTail rest
    else c == '.' && (match rest with | d :: _ => pyIsSpace d | [] => false)

/-- Pattern `^\d+\.\s` anchored at a line start. -/
def numListAt : List Char → Bool
  | c :: rest => c.isDigit && numListTail rest
  | [] => false

/-- The suffixes of `s` that start right after a newline: with
`re.MULTILINE`, `^` matches at the string start and at each of these. -/
def lineStartSuffixes : List Char → List (List Char)
  | [] => []
  | c :: rest =>
    if c = '\n' then rest :: lineStartSuffixes rest else lineStartSuffixes rest

/-- Model of `re.search` of a `^`-anchored pattern under `re.MULTILINE`. -/
def searchML (p : List Char → Bool) (s : List Char) : Bool :=
  (s :: lineStartSuffixes s).any p

/-- Pattern `\*\*.*\*\*` within one line (`.` does not match newlines): a `**`
followed, at least two characters later, by another `**`. -/
def boldLine (l : List Char) : Bool :=
  match subAfter "**".data l with
  | some rest => containsSub "**".data rest
  | none => false

/-- Pattern `\*.*\*` within one line: two `*` characters. -/
def italicLine (l : List Char) : Bool :=
  match subAfter "*".data l with
  | some rest => containsSub "*".data rest
  | none => false

/-- Pattern `\[.*\]\(.*\)` within one line: `[`, then `](`, then `)`. -/
def linkLine (l : List Char) : Bool :=
  match subAfter "[".data l with
  | some r1 =>
    match subAfter "](".data r1 with
    | some r2 => containsSub ")".data r2
    | none => false
  | none => false

/-- Embedding of `DocumentConverter._is_markdown`: `re.search` with `re.MULTILINE` over
the seven cue patterns (headers, bold, italic, lists, numbered lists, links,
fenced code). -/
def is_markdown (text : String) : Bool :=
  let s := text.data
  searchML hashHeaderAt s
  || (splitCh '\n' s).any boldLine
  || (splitCh '\n' s).any italicLine
  || searchML starListAt s
  || searchML numListAt s
  || (splitCh '\n' s).any linkLine
  || containsSub "```".data s

/-- The verbatim HTML header emitted by `to_html` (document head, CSS and
opening body). -/
def htmlHeader : String :=
  pyJoin "\n"
    ["",
     "<!DOCTYPE html>",
     "<html lang=\"en\">",
     "<head>",
     "    <meta charset=\"UTF-8\">",
     "    <meta name=\"viewport\" content=\"width=device-width, initial-scale=1.0\">",
     "    <title>OCR Results</title>",
     "    <style>",
     "        body \x7b",
     "            font-family: \x27Segoe UI\x27, Tahoma, Geneva, Verdana, sans-serif;",
     "            max-width: 900px;",
     "            margin: 40px auto;",
     "            padding: 20px;",
     "            line-height: 1.6;",
     "            background-color: #f5f5f5;",
     "        \x7d",
     "        .page \x7b",
     "            background: white;",
     "            padding: 40px;",
     "            margin-bottom: 30px;",
     "            box-shadow: 0 2px 8px rgba(0,0,0,0.1);",
     "            border-radius: 8px;",
     "        \x7d",
     "        .page-header \x7b",
     "            color: #333;",
     "            border-bottom: 2px solid #4CAF50;",
     "            padding-bottom: 10px;",
     "            margin-bottom: 20px;",
     "        \x7d",
     "        table \x7b",
     "            border-collapse: collapse;",
     "            width: 100%;",
     "            margin: 20px 0;",
     "        \x7d",
     "        th, td \x7b",
     "            border: 1px solid #ddd;",
     "            padding: 12px;",
     "            text-align: left;",
     "        \x7d",
     "        th \x7b",
     "            background-color: #4CAF50;",
     "            color: white;",
     "        \x7d",
     "        tr:nth-child(even) \x7b",
     "            background-color: #f9f9f9;",
     "        \x7d",
     "        img \x7b",
     "            max-width: 100%;",
     "            height: auto;",
     "            margin: 15px 0;",
     "            border-radius: 4px;",
     "        \x7d",
     "        code \x7b",
     "            background-color: #f4f4f4;",
     "            padding: 2px 6px;",
     "            border-radius: 3px;",
     "            font-family: \x27Courier New\x27, monospace;",
     "        \x7d",
     "        pre \x7b",
     "            background-color: #f4f4f4;",
     "            padding: 15px;",
     "            border-radius: 5px;",
     "            overflow-x: auto;",
     "        \x7d",
     "    </style>",
     "</head>",
     "<body>",
     "    <h1>DeepSeek OCR Results</h1>",
     ""]

/-- The verbatim HTML footer emitted by `to_html`. -/
def htmlFooter : String :=
  pyJoin "\n" ["", "</body>", "</html>", ""]

/-- The image-substitution loop of `to_html`. -/
def htmlSubstText (include_images : Bool) (p : ExportPage) : String :=
  match include_images, p.images with
  | true, some imgs =>
    ⟨(imgs.enum).foldl
      (fun t q => replaceAll (imagePlaceholder q.1)
        ("<img src=\"data:image/jpeg;base64," ++ q.2 ++ "\" alt=\"Image " ++ toString (q.1 + 1)
          ++ "\" />").data t)
      p.text.data⟩
  | _, _ => p.text

/-- The page-content branch of `to_html`: markdown-looking text goes through
the external renderer; otherwise text containing `<` is embedded verbatim,
and only `<`-free text is wrapped in a paragraph with newlines turned into
`<br>`. -/
def htmlContent (mdRender : String → String) (include_images : Bool) (p : ExportPage) : String :=
  if is_markdown (htmlSubstText include_images p) then mdRender (htmlSubstText include_images p)
  else if containsSub "<".data (htmlSubstText include_images p).data then
    htmlSubstText include_images p
  else
    "<p>" ++ (⟨replaceAll "\n".data "<br>".data (htmlSubstText include_images p).data⟩ : String)
      ++ "</p>"

/-- Embedding of `DocumentConverter.to_html`: header, then per page an opening `div`, a
`h2` page header, the page content and a closing `div`, then the footer, all
joined with newlines. -/
def to_html (mdRender : String → String) (pages : List ExportPage) (include_images : Bool) :
    String :=
  pyJoin "\n" ([htmlHeader] ++
    (pages.enum.map (fun q =>
      ["    <div class=\"page\">",
       "        <h2 class=\"page-header\">Page " ++ toString (q.1 + 1) ++ "</h2>",
       "        " ++ htmlContent mdRender include_images q.2,
       "    </div>"])).flatten ++ [htmlFooter])

/-- The block elements added to the DOCX `Document`, in order. -/
inductive DocxBlock where
  | title (text : String)
  | heading (level : Nat) (text : String)
  | paragraph (text : String)
  | code (text : String)
  | table (rows : List (List String))
  | picture
  | pageBreak
deriving DecidableEq

/-- The separator-row filter `re.match(r'^[\|\s\-:]+$', row)` of
`_add_table_to_doc`. -/
def isSepRow (row : List Char) : Bool :=
  !row.isEmpty && row.all (fun c => c == '|' || c == '-' || c == ':' || pyIsSpace c)

/-- The row/cell extraction of `_add_table_to_doc`: split lines, strip,
drop blank lines and separator rows, split cells on `|`, strip, drop empty
cells, drop rows with no cells left. -/
def tableRows (para : List Char) : List (List String) :=
  let rows := ((splitCh '\n' para).map pyStrip).filter (fun r => !r.isEmpty)
  let dataRows := rows.filter (fun r => !isSepRow r)
  (dataRows.map (fun r =>
      (((splitCh '|' r).map pyStrip).filter (fun c => !c.isEmpty)).map
        (fun c => (⟨c⟩ : String)))).filter
    (fun cells => !cells.isEmpty)

/-- The created DOCX table has `max_cols` columns; cells beyond a row's data
stay empty.  Rows are padded accordingly. -/
def padRows (rows : List (List String)) : List (List String) :=
  let maxCols := rows.foldl (fun m r => max m r.length) 0
  rows.map (fun r => r ++ List.replicate (maxCols - r.length) "")

/-- Embedding of `_add_table_to_doc`: adds one table block, or nothing when no data rows
survive. -/
def addTable (para : List Char) : Option DocxBlock :=
  let td := tableRows para
  if td.isEmpty then none else some (DocxBlock.table (padRows td))

/-- Python `para.strip('```')`: strip backtick characters from both ends. -/
def stripTicks (l : List Char) : List Char :=
  let isTick := fun c => "```".data.contains c
  ((l.dropWhile isTick).reverse.dropWhile isTick).reverse

/-- The paragraph dispatch of `_add_formatted_text_to_doc`: blank paragraphs
are skipped; `#`/`##`/`###` prefixes become headings (with every occurrence
of the marker removed, as `str.replace` does); a paragraph with more than
two pipes becomes a table; a triple-backtick paragraph becomes fixed-width
text; anything else a stripped plain paragraph. -/
def paraBlock (para : List Char) : Option DocxBlock :=
  if (pyStrip para).isEmpty then none
  else if "# ".data.isPrefixOf para then
    some (DocxBlock.heading 1 ⟨replaceAll "# ".data [] para⟩)
  else if "## ".data.isPrefixOf para then
    some (DocxBlock.heading 2 ⟨replaceAll "## ".data [] para⟩)
  else if "### ".data.isPrefixOf para then
    some (DocxBlock.heading 3 ⟨replaceAll "### ".data [] para⟩)
  else if containsSub "|".data para && decide (countCh '|' para > 2) then
    addTable para
  else if "```".data.isPrefixOf para then
    some (DocxBlock.code ⟨pyStrip (stripTicks para)⟩)
  else
    some (DocxBlock.paragraph ⟨pyStrip para⟩)

/-- Embedding of `_add_formatted_text_to_doc`: split on blank lines and dispatch each
paragraph. -/
def formattedBlocks (text : List Char) : List DocxBlock :=
  (splitSub "\n\n".data text).filterMap paraBlock

/-- The image loop of `to_docx`: a decodable image adds a picture block and
removes its placeholder from the text; a failed decode is logged and skipped
(placeholder left in place). -/
def docxImageStep (decodeOk : String → Bool) :
    List (Nat × String) → List Char → List DocxBlock × List Char
  | [], text => ([], text)
  | q :: rest, text =>
    if decodeOk q.2 then
      let pr := docxImageStep decodeOk rest (replaceAll (imagePlaceholder q.1) [] text)
      (DocxBlock.picture :: pr.1, pr.2)
    else docxImageStep decodeOk rest text

/-- The per-page body of `to_docx`: picture blocks (in image order) followed
by the formatted text blocks. -/
def docxPageBody (decodeOk : String → Bool) (include_images : Bool) (p : ExportPage) :
    List DocxBlock :=
  match include_images, p.images with
  | true, some imgs =>
    let pr := docxImageStep decodeOk imgs.enum p.text.data
    pr.1 ++ formattedBlocks pr.2
  | _, _ => formattedBlocks p.text.data

/-- Embedding of `DocumentConverter.to_docx` as its ordered block sequence: document
title, then per page a `Page …` heading, the page body, and — except after
the last page — a page break. -/
def to_docx (decodeOk : String → Bool) (pages : List ExportPage) (include_images : Bool) :
    List DocxBlock :=
  DocxBlock.title "DeepSeek OCR Results" ::
    (pages.enum.map (fun q =>
      DocxBlock.heading 1 ("Page " ++ toString (q.1 + 1)) ::
        (docxPageBody decodeOk include_images q.2 ++
          (if q.1 + 1 < pages.length then [DocxBlock.pageBreak] else [])))).flatten

end DSOCR

namespace SpecSide

/-- Specification-side shape of the multi-page combined text: one
page-number separator line per page, in order `i, i+1, …`, each directly
prefixing that page's text, consecutive pages joined by the single newline
that `"\n".join` inserts. -/
def pageSepConcat (f : DSOCR.PageData → String) : Nat → List DSOCR.PageData → String
  | _, [] => ""
  | i, [pd] => "\n--- Page " ++ toString i ++ " ---\n" ++ f pd
  | i, pd :: pd2 :: rest =>
    "\n--- Page " ++ toString i ++ " ---\n" ++ f pd ++ "\n"
      ++ pageSepConcat f (i + 1) (pd2 :: rest)

/-- Specification-side shape of the Markdown export body: per page a
`# Page i` title line, a blank line, the page text, and a `---` horizontal
rule page marker — after every page, the last one included. -/
def mdPagesShape (inc : Bool) : Nat → List DSOCR.ExportPage → String
  | _, [] => ""
  | i, [p] =>
    "# Page " ++ toString i ++ "\n" ++ "\n" ++ DSOCR.mdSubstText inc p ++ "\n" ++ "\n\n---\n\n"
  | i, p :: q :: rest =>
    "# Page " ++ toString i ++ "\n" ++ "\n" ++ DSOCR.mdSubstText inc p ++ "\n" ++ "\n\n---\n\n"
      ++ "\n" ++ mdPagesShape inc (i + 1) (q :: rest)

/-- Specification-side shape of the DOCX export body: per page a `Page i`
heading and the page's body blocks, with a page break between consecutive
pages and none after the last. -/
def docxPagesShape (decodeOk : String → Bool) (inc : Bool) :
    Nat → List DSOCR.ExportPage → List DSOCR.DocxBlock
  | _, [] => []
  | i, [p] => DSOCR.DocxBlock.heading 1 ("Page " ++ toString i) :: DSOCR.docxPageBody decodeOk inc p
  | i, p :: q :: rest =>
    (DSOCR.DocxBlock.heading 1 ("Page " ++ toString i) :: DSOCR.docxPageBody decodeOk inc p)
      ++ DSOCR.DocxBlock.pageBreak :: docxPagesShape decodeOk inc (i + 1) (q :: rest)

/-- Specification-side shape of the HTML export body lines: every page is
wrapped in its own `div` carrying an `h2` page title around the page
content. -/
def htmlPagesShape (mdR : String → String) (inc : Bool) :
    Nat → List DSOCR.ExportPage → List String
  | _, [] => []
  | i, p :: rest =>
    "    <div class=\"page\">"
      :: ("        <h2 class=\"page-header\">Page " ++ toString i ++ "</h2>")
      :: ("        " ++ DSOCR.htmlContent mdR inc p)
      :: "    </div>" :: htmlPagesShape mdR inc (i + 1) rest

end SpecSide

/-! ### Helper lemmas -/

/-- The model floor agrees with the mathlib floor. -/
theorem ratFloor_eq_floor (q : ℚ) : DSOCR.ratFloor q = ⌊q⌋ :=
  Rat.floor_def.symm

/-- C1 counterexample: the program scales coordinates with IEEE double
arithmetic, which is not the claimed exact floor: the in-scope raw
coordinate 63 against a 111-pixel dimension is scaled to 6 by the code,
while floor(63/999*111) = 7. -/
theorem C1_counterexample :
    DSOCR.parse_detections "<|ref|>X<|/ref|><|det|>[[63,63,63,63]]<|/det|>" 111 111
      = [⟨"X", [6, 6, 6, 6]⟩]
    ∧ ⌊((63 : ℚ) * 111) / 999⌋ = 7
    ∧ (6 : Int) ≠ 7 := by
  refine ⟨by with_unfolding_all decide, ?_, by decide⟩
  rw [← ratFloor_eq_floor]
  with_unfolding_all decide

/-- C1 amended: each coordinate is computed as int(float(raw)/999*dim) in
IEEE binary64 arithmetic.  On the cited inputs this agrees with the floor
of raw/999*dim — the single-block example on a 1000×2000 image yields the
one detection `Total` with box [100, 400, 300, 800], and the boundary box
[0, 0, 999, 999] there scales to [0, 0, 1000, 2000] — but not universally:
raw 63 at dimensions 111, 999 and 1332 scales to 6, 62 and 83 where the
floors are 7, 63 and 84. -/
theorem C1_ieee_scaling :
    DSOCR.parse_detections "<|ref|>Total<|/ref|><|det|>[[100,200,300,400]]<|/det|>" 1000 2000
      = [⟨"Total", [100, 400, 300, 800]⟩]
    ∧ DSOCR.parse_detections "<|ref|>B<|/ref|><|det|>[[0,0,999,999]]<|/det|>" 1000 2000
      = [⟨"B", [0, 0, 1000, 2000]⟩]
    ∧ DSOCR.scaleCoord 63 111 = some 6
    ∧ DSOCR.scaleCoord 63 999 = some 62
    ∧ DSOCR.scaleCoord 63 1332 = some 83
    ∧ DSOCR.ratFloor (((63 : ℚ) * 111) / 999) = 7
    ∧ DSOCR.ratFloor (((63 : ℚ) * 999) / 999) = 63
    ∧ DSOCR.ratFloor (((63 : ℚ) * 1332) / 999) = 84 :=
  ⟨by with_unfolding_all decide, by with_unfolding_all decide, by with_unfolding_all decide,
    by with_unfolding_all decide, by with_unfolding_all decide, by with_unfolding_all decide,
    by with_unfolding_all decide, by with_unfolding_all decide⟩

/-- C2: the claim states that well-formed detection blocks are extracted
regardless of other blocks in the same text.  The code violates this: the
greedy coordinate capture of the first match spans every later block, the
merged payload fails `ast.literal_eval`, and the whole text yields no
detections — even though each block alone parses fine. -/
theorem C2_multiblock_failure :
    DSOCR.parse_detections
      "<|ref|>A<|/ref|><|det|>[[1,2,3,4]]<|/det|> mid <|ref|>B<|/ref|><|det|>[[5,6,7,8]]<|/det|>"
      999 999 = []
    ∧ DSOCR.parse_detections "<|ref|>A<|/ref|><|det|>[[1,2,3,4]]<|/det|>" 999 999
        = [⟨"A", [1, 2, 3, 4]⟩]
    ∧ DSOCR.parse_detections "<|ref|>B<|/ref|><|det|>[[5,6,7,8]]<|/det|>" 999 999
        = [⟨"B", [5, 6, 7, 8]⟩] :=
  ⟨by with_unfolding_all decide, by with_unfolding_all decide, by with_unfolding_all decide⟩

/-- C3: a single malformed block is skipped without error, and a short box
inside a block is skipped while its well-formed sibling is converted — but
the final part of the claim fails: a malformed block does prevent another
well-formed block in the same text from being extracted, because the greedy
coordinate capture merges them into one failing payload. -/
theorem C3_best_effort_parsing :
    DSOCR.parse_detections "<|ref|>Item<|/ref|><|det|>[abc]<|/det|>" 500 500 = []
    ∧ DSOCR.parse_detections "<|ref|>Pair<|/ref|><|det|>[[1,2],[10,20,30,40]]<|/det|>" 999 999
        = [⟨"Pair", [10, 20, 30, 40]⟩]
    ∧ DSOCR.parse_detections
        "<|ref|>A<|/ref|><|det|>[abc]<|/det|> ok <|ref|>B<|/ref|><|det|>[[100,200,300,400]]<|/det|>"
        1000 2000 = [] :=
  ⟨by with_unfolding_all decide, by with_unfolding_all decide, by with_unfolding_all decide⟩

/-- C4 counterexample: with two well-formed blocks the single greedy match
swallows the text between them and the second label, so the claimed output
`a L1 b L2 c` is not produced. -/
theorem C4_counterexample :
    DSOCR.clean_grounding_text
      "a <|ref|>L1<|/ref|><|det|>[[1,2,3,4]]<|/det|> b <|ref|>L2<|/ref|><|det|>[[5,6,7,8]]<|/det|> c"
      = "a L1 c"
    ∧ "a L1 c" ≠ "a L1 b L2 c" :=
  ⟨by decide, by decide⟩

/-! ### Lemmas for the universal `clean_grounding_text` characterization -/

theorem tagPrefix_false {c : Char} {s t : List Char} (hc : (c != '<') = true) :
    List.isPrefixOf ('<' :: t) (c :: s) = false := by
  have h1 : c ≠ '<' := bne_iff_ne.mp hc
  have h2 : ('<' == c) = false := beq_eq_false_iff_ne.mpr (Ne.symm h1)
  simp [List.isPrefixOf, h2]

theorem refTag_head_mismatch {c : Char} {s : List Char} (hc : (c != '<') = true) :
    DSOCR.refTag.isPrefixOf (c :: s) = false := by
  have h : DSOCR.refTag = '<' :: "|ref|>".data := by decide
  rw [h]; exact tagPrefix_false hc

theorem endRefTag_head_mismatch {c : Char} {s : List Char} (hc : (c != '<') = true) :
    DSOCR.endRefTag.isPrefixOf (c :: s) = false := by
  have h : DSOCR.endRefTag = '<' :: "|/ref|>".data := by decide
  rw [h]; exact tagPrefix_false hc

theorem tag_isPrefixOf_append (t s : List Char) : List.isPrefixOf t (t ++ s) = true := by
  induction t with
  | nil => simp [List.isPrefixOf]
  | cons a as ih => simp [List.isPrefixOf, ih]

theorem findBlock_cons_ne {c : Char} {s : List Char} (hc : (c != '<') = true) :
    DSOCR.findBlock (c :: s)
      = match DSOCR.findBlock s with
        | some (pre, l, co, rem) => some (c :: pre, l, co, rem)
        | none => none := by
  rw [DSOCR.findBlock]
  rw [refTag_head_mismatch hc]
  simp

theorem findBlock_no_lt {s : List Char} (hs : s.all (fun c => c != '<') = true) :
    DSOCR.findBlock s = none := by
  induction s with
  | nil => rfl
  | cons c rest ih =>
    rw [List.all_cons, Bool.and_eq_true] at hs
    rw [findBlock_cons_ne hs.1, ih hs.2]

theorem findBlock_append_some {p s : List Char} {pre l co rem : List Char}
    (hp : p.all (fun c => c != '<') = true)
    (hs : DSOCR.findBlock s = some (pre, l, co, rem)) :
    DSOCR.findBlock (p ++ s) = some (p ++ pre, l, co, rem) := by
  induction p with
  | nil => simpa using hs
  | cons c p' ih =>
    rw [List.all_cons, Bool.and_eq_true] at hp
    rw [List.cons_append, findBlock_cons_ne hp.1, ih hp.2]
    rfl

theorem findBlock_append_none {p s : List Char}
    (hp : p.all (fun c => c != '<') = true)
    (hs : DSOCR.findBlock s = none) :
    DSOCR.findBlock (p ++ s) = none := by
  induction p with
  | nil => simpa using hs
  | cons c p' ih =>
    rw [List.all_cons, Bool.and_eq_true] at hp
    rw [List.cons_append, findBlock_cons_ne hp.1, ih hp.2]

theorem afterDetClose_no_lt {l : List Char} (hl : l.all (fun c => c != '<') = true) :
    DSOCR.afterDetClose l = none := by
  have hdet : DSOCR.endDetTag = '<' :: "|/det|>".data := by decide
  cases hd : l.dropWhile DSOCR.pyIsSpace with
  | nil => simp [DSOCR.afterDetClose, hd, hdet, List.isPrefixOf]
  | cons c rest =>
    have hmem : c ∈ l := by
      have hsub := List.dropWhile_sublist (l := l) (p := DSOCR.pyIsSpace)
      rw [hd] at hsub
      exact hsub.mem (List.mem_cons_self c rest)
    have hc : (c != '<') = true := by
      rw [List.all_eq_true] at hl
      exact hl c hmem
    simp [DSOCR.afterDetClose, hd, hdet, tagPrefix_false hc]

theorem lastClose_no_lt {l : List Char} (hl : l.all (fun c => c != '<') = true) :
    DSOCR.lastClose l = none := by
  induction l with
  | nil => rfl
  | cons c rest ih =>
    rw [List.all_cons, Bool.and_eq_true] at hl
    rw [DSOCR.lastClose, ih hl.2]
    by_cases hc : c = ']'
    · rw [if_pos hc, afterDetClose_no_lt hl.2]
    · rw [if_neg hc]

theorem afterDetClose_self (q : List Char) :
    DSOCR.afterDetClose (DSOCR.endDetTag ++ q) = some q := by
  have hdet : DSOCR.endDetTag = ['<', '|', '/', 'd', 'e', 't', '|', '>'] := by decide
  rw [hdet]
  simp [DSOCR.afterDetClose, List.isPrefixOf, DSOCR.pyIsSpace]

theorem lastClose_append_some {R b r : List Char}
    (h : DSOCR.lastClose R = some (b, r)) (X : List Char) :
    DSOCR.lastClose (X ++ R) = some (X ++ b, r) := by
  induction X with
  | nil => simpa using h
  | cons c X' ih =>
    rw [List.cons_append, DSOCR.lastClose, ih]
    rfl

theorem lastClose_nobr_append {A R : List Char}
    (hA : A.all (fun c => c != ']') = true)
    (hR : DSOCR.lastClose R = none) :
    DSOCR.lastClose (A ++ R) = none := by
  induction A with
  | nil => simpa using hR
  | cons c A' ih =>
    rw [List.all_cons, Bool.and_eq_true] at hA
    have hc : c ≠ ']' := bne_iff_ne.mp hA.1
    rw [List.cons_append, DSOCR.lastClose, ih hA.2, if_neg hc]

theorem lastClose_close {q : List Char} (hq : q.all (fun c => c != '<') = true) :
    DSOCR.lastClose (']' :: ']' :: (DSOCR.endDetTag ++ q)) = some ([']', ']'], q) := by
  have h0 : DSOCR.lastClose (DSOCR.endDetTag ++ q) = none :=
    lastClose_nobr_append (by decide) (lastClose_no_lt hq)
  have h1 : DSOCR.lastClose (']' :: (DSOCR.endDetTag ++ q)) = some ([']'], q) := by
    rw [DSOCR.lastClose, h0, afterDetClose_self]
    simp
  rw [DSOCR.lastClose, h1]

theorem afterRef_block {D q : List Char} (hq : q.all (fun c => c != '<') = true) :
    DSOCR.afterRef (DSOCR.detTag ++ ('[' :: '[' :: (D ++ (']' :: ']' :: (DSOCR.endDetTag ++ q)))))
      = some ('[' :: '[' :: (D ++ [']', ']']), q) := by
  have h3 := lastClose_append_some (lastClose_close hq) ('[' :: D)
  simp only [List.cons_append, List.append_assoc] at h3
  have hdet : DSOCR.detTag = ['<', '|', 'd', 'e', 't', '|', '>'] := by decide
  rw [hdet]
  simp [DSOCR.afterRef, List.isPrefixOf, DSOCR.pyIsSpace, h3]

theorem tryLabel_append {U co rem : List Char} (hU : DSOCR.afterRef U = some (co, rem)) :
    ∀ (L acc : List Char), L.all (fun c => c != '<') = true →
      DSOCR.tryLabel acc (L ++ (DSOCR.endRefTag ++ U)) = some (acc.reverse ++ L, co, rem) := by
  intro L
  induction L with
  | nil =>
    intro acc _
    have hend : DSOCR.endRefTag = ['<', '|', '/', 'r', 'e', 'f', '|', '>'] := by decide
    rw [List.nil_append, hend]
    simp only [List.cons_append, List.nil_append]
    rw [DSOCR.tryLabel]
    rw [show DSOCR.endRefTag.isPrefixOf
        ('<' :: '|' :: '/' :: 'r' :: 'e' :: 'f' :: '|' :: '>' :: U) = true by
      rw [hend]; simp [List.isPrefixOf]]
    simp only [List.drop_succ_cons, List.drop_zero, if_true]
    rw [hU]
    simp
  | cons c L' ih =>
    intro acc hL
    rw [List.all_cons, Bool.and_eq_true] at hL
    rw [List.cons_append, DSOCR.tryLabel, endRefTag_head_mismatch hL.1]
    simp only [Bool.false_eq_true, if_false]
    rw [ih (c :: acc) hL.2]
    simp

theorem findBlock_at {L U co rem : List Char}
    (hL : L.all (fun c => c != '<') = true)
    (hU : DSOCR.afterRef U = some (co, rem)) :
    DSOCR.findBlock (DSOCR.refTag ++ (L ++ (DSOCR.endRefTag ++ U)))
      = some ([], L, co, rem) := by
  have href : DSOCR.refTag = ['<', '|', 'r', 'e', 'f', '|', '>'] := by decide
  rw [href]
  simp only [List.cons_append, List.nil_append]
  rw [DSOCR.findBlock]
  rw [show DSOCR.refTag.isPrefixOf
      ('<' :: '|' :: 'r' :: 'e' :: 'f' :: '|' :: '>' :: (L ++ (DSOCR.endRefTag ++ U))) = true by
    rw [href]; simp [List.isPrefixOf]]
  simp only [List.drop_succ_cons, List.drop_zero, if_true]
  rw [tryLabel_append hU L [] hL]
  simp

theorem cleanAux_none {s : List Char} (h : DSOCR.findBlock s = none) :
    ∀ fuel, DSOCR.cleanAux fuel s = s := by
  intro fuel
  cases fuel with
  | zero => rfl
  | succ f => rw [DSOCR.cleanAux, h]

theorem cleanAux_step {s pre label co rem : List Char} (fuel : Nat)
    (h : DSOCR.findBlock s = some (pre, label, co, rem)) :
    DSOCR.cleanAux (fuel + 1) s = pre ++ label ++ DSOCR.cleanAux fuel rem := by
  rw [DSOCR.cleanAux, h]

theorem replaceAllAux_no_lt {t repl s : List Char}
    (hs : s.all (fun c => c != '<') = true) :
    ∀ fuel, DSOCR.replaceAllAux ('<' :: t) repl fuel s = s := by
  induction s with
  | nil => intro fuel; cases fuel <;> rfl
  | cons c rest ih =>
    intro fuel
    rw [List.all_cons, Bool.and_eq_true] at hs
    cases fuel with
    | zero => rfl
    | succ f =>
      rw [DSOCR.replaceAllAux, tagPrefix_false hs.1]
      simp only [Bool.false_eq_true, if_false]
      rw [ih hs.2 f]

theorem replaceAllAux_skip {t repl g1 rest : List Char}
    (hg1 : g1.all (fun c => c != '<') = true) :
    ∀ fuel, DSOCR.replaceAllAux ('<' :: t) repl (g1.length + fuel) (g1 ++ rest)
      = g1 ++ DSOCR.replaceAllAux ('<' :: t) repl fuel rest := by
  induction g1 with
  | nil => intro fuel; simp
  | cons c g1' ih =>
    intro fuel
    rw [List.all_cons, Bool.and_eq_true] at hg1
    have harith : (c :: g1').length + fuel = (g1'.length + fuel) + 1 := by
      simp [List.length_cons]; omega
    rw [harith, List.cons_append, DSOCR.replaceAllAux, tagPrefix_false hg1.1]
    simp only [Bool.false_eq_true, if_false]
    rw [ih hg1.2 fuel]
    rfl

theorem cleanAux_core {p L D q : List Char}
    (hp : p.all (fun c => c != '<') = true)
    (hL : L.all (fun c => c != '<') = true)
    (hq : q.all (fun c => c != '<') = true) (m : Nat) :
    DSOCR.cleanAux (m + 1)
      (p ++ (DSOCR.refTag ++ (L ++ (DSOCR.endRefTag ++ (DSOCR.detTag
        ++ ('[' :: '[' :: (D ++ (']' :: ']' :: (DSOCR.endDetTag ++ q)))))))))
      = p ++ (L ++ q) := by
  have hfb : DSOCR.findBlock
      (p ++ (DSOCR.refTag ++ (L ++ (DSOCR.endRefTag ++ (DSOCR.detTag
        ++ ('[' :: '[' :: (D ++ (']' :: ']' :: (DSOCR.endDetTag ++ q)))))))))
      = some (p, L, '[' :: '[' :: (D ++ [']', ']']), q) := by
    have h := findBlock_append_some hp (findBlock_at hL (afterRef_block (D := D) hq))
    rwa [List.append_nil] at h
  rw [cleanAux_step m hfb, cleanAux_none (findBlock_no_lt hq) m, List.append_assoc]

theorem clean_core {p L D q : List Char}
    (hp : p.all (fun c => c != '<') = true)
    (hL : L.all (fun c => c != '<') = true)
    (hq : q.all (fun c => c != '<') = true) :
    DSOCR.clean_grounding_text
      ⟨p ++ (DSOCR.refTag ++ (L ++ (DSOCR.endRefTag ++ (DSOCR.detTag
        ++ ('[' :: '[' :: (D ++ (']' :: ']' :: (DSOCR.endDetTag ++ q))))))))⟩
      = ⟨DSOCR.pyStrip (p ++ (L ++ q))⟩ := by
  have href : DSOCR.refTag = '<' :: "|ref|>".data := by decide
  have hne : (p ++ (DSOCR.refTag ++ (L ++ (DSOCR.endRefTag ++ (DSOCR.detTag
      ++ ('[' :: '[' :: (D ++ (']' :: ']' :: (DSOCR.endDetTag ++ q))))))))) ≠ [] := by
    rw [href]
    simp
  obtain ⟨m, hm⟩ := Nat.exists_eq_succ_of_ne_zero
    (fun h0 => hne (List.length_eq_zero.mp h0))
  unfold DSOCR.clean_grounding_text
  refine congrArg (fun z : List Char => (⟨DSOCR.pyStrip z⟩ : String)) ?_
  rw [hm] at *
  rw [show (String.mk (p ++ (DSOCR.refTag ++ (L ++ (DSOCR.endRefTag ++ (DSOCR.detTag
      ++ ('[' :: '[' :: (D ++ (']' :: ']' :: (DSOCR.endDetTag ++ q)))))))))).data
      = p ++ (DSOCR.refTag ++ (L ++ (DSOCR.endRefTag ++ (DSOCR.detTag
      ++ ('[' :: '[' :: (D ++ (']' :: ']' :: (DSOCR.endDetTag ++ q)))))))) from rfl]
  rw [hm, cleanAux_core hp hL hq m]
  have hgr : DSOCR.groundingTag = '<' :: "|grounding|>".data := by decide
  have hall : (p ++ (L ++ q)).all (fun c => c != '<') = true := by
    rw [List.all_append, Bool.and_eq_true, List.all_append, Bool.and_eq_true]
    exact ⟨hp, hL, hq⟩
  rw [DSOCR.replaceAll, hgr, replaceAllAux_no_lt hall]

theorem findBlock_groundingTag {g2 : List Char} (hg2 : g2.all (fun c => c != '<') = true) :
    DSOCR.findBlock (DSOCR.groundingTag ++ g2) = none := by
  have hgr : DSOCR.groundingTag
      = '<' :: ['|', 'g', 'r', 'o', 'u', 'n', 'd', 'i', 'n', 'g', '|', '>'] := by decide
  rw [hgr, List.cons_append, DSOCR.findBlock]
  rw [show DSOCR.refTag.isPrefixOf
      ('<' :: (['|', 'g', 'r', 'o', 'u', 'n', 'd', 'i', 'n', 'g', '|', '>'] ++ g2)) = false by
    rw [show DSOCR.refTag = ['<', '|', 'r', 'e', 'f', '|', '>'] from by decide]
    simp [List.isPrefixOf]]
  have hin : DSOCR.findBlock
      ('|' :: 'g' :: 'r' :: 'o' :: 'u' :: 'n' :: 'd' :: 'i' :: 'n' :: 'g' :: '|' :: '>' :: g2)
      = none := by
    have h := findBlock_append_none
      (p := ['|', 'g', 'r', 'o', 'u', 'n', 'd', 'i', 'n', 'g', '|', '>'])
      (by decide) (findBlock_no_lt hg2)
    simpa using h
  simp [hin]

theorem clean_grounding_only {g1 g2 : List Char}
    (hg1 : g1.all (fun c => c != '<') = true)
    (hg2 : g2.all (fun c => c != '<') = true) :
    DSOCR.clean_grounding_text ⟨g1 ++ (DSOCR.groundingTag ++ g2)⟩
      = ⟨DSOCR.pyStrip (g1 ++ g2)⟩ := by
  have hgr : DSOCR.groundingTag = '<' :: "|grounding|>".data := by decide
  have hfbn : DSOCR.findBlock (g1 ++ (DSOCR.groundingTag ++ g2)) = none :=
    findBlock_append_none hg1 (findBlock_groundingTag hg2)
  unfold DSOCR.clean_grounding_text
  refine congrArg (fun z : List Char => (⟨DSOCR.pyStrip z⟩ : String)) ?_
  rw [show (String.mk (g1 ++ (DSOCR.groundingTag ++ g2))).data
      = g1 ++ (DSOCR.groundingTag ++ g2) from rfl]
  rw [cleanAux_none hfbn]
  have harith : (g1 ++ (DSOCR.groundingTag ++ g2)).length + 1
      = g1.length + ((13 + g2.length) + 1) := by
    rw [List.length_append, List.length_append,
      show DSOCR.groundingTag.length = 13 from by decide]
    omega
  rw [DSOCR.replaceAll, harith]
  rw [show DSOCR.groundingTag = '<' :: "|grounding|>".data from hgr]
  rw [replaceAllAux_skip hg1 ((13 + g2.length) + 1)]
  rw [show ('<' :: "|grounding|>".data) ++ g2
      = '<' :: ("|grounding|>".data ++ g2) from rfl]
  rw [DSOCR.replaceAllAux]
  rw [show ('<' :: "|grounding|>".data).isPrefixOf ('<' :: ("|grounding|>".data ++ g2))
      = true by
    rw [show '<' :: ("|grounding|>".data ++ g2)
        = ('<' :: "|grounding|>".data) ++ g2 from rfl]
    exact tag_isPrefixOf_append _ _]
  simp only [if_true]
  rw [show '<' :: ("|grounding|>".data ++ g2)
      = ('<' :: "|grounding|>".data) ++ g2 from rfl]
  rw [List.drop_left]
  rw [replaceAllAux_no_lt hg2]
  simp

/-- C4 amended: for text whose prose, label and trailing part contain no tag
characters, a single well-formed detection block is replaced by exactly its
label group (for an arbitrary coordinate payload) and the result is
whitespace-stripped; with two blocks the one greedy match spans from the
first block through the last, collapsing the whole span to the first label;
a standalone grounding token between tag-free prose is removed. -/
theorem C4_clean_behavior :
    (∀ p L D q : List Char,
        p.all (fun c => c != '<') = true → L.all (fun c => c != '<') = true →
        q.all (fun c => c != '<') = true →
        DSOCR.clean_grounding_text ⟨p ++ (DSOCR.refTag ++ (L ++ (DSOCR.endRefTag ++ (DSOCR.detTag ++ ('[' :: '[' :: (D ++ (']' :: ']' :: (DSOCR.endDetTag ++ q))))))))⟩
          = ⟨DSOCR.pyStrip (p ++ (L ++ q))⟩)
    ∧ (∀ p L1 D1 mid L2 D2 q : List Char,
        p.all (fun c => c != '<') = true → L1.all (fun c => c != '<') = true →
        q.all (fun c => c != '<') = true →
        DSOCR.clean_grounding_text ⟨p ++ (DSOCR.refTag ++ (L1 ++ (DSOCR.endRefTag ++ (DSOCR.detTag ++ ('[' :: '[' :: (D1 ++ (']' :: ']' :: (DSOCR.endDetTag ++ (mid ++ (DSOCR.refTag ++ (L2 ++ (DSOCR.endRefTag ++ (DSOCR.detTag ++ ('[' :: '[' :: (D2 ++ (']' :: ']' :: (DSOCR.endDetTag ++ q)))))))))))))))))⟩
          = ⟨DSOCR.pyStrip (p ++ (L1 ++ q))⟩)
    ∧ (∀ g1 g2 : List Char,
        g1.all (fun c => c != '<') = true → g2.all (fun c => c != '<') = true →
        DSOCR.clean_grounding_text ⟨g1 ++ (DSOCR.groundingTag ++ g2)⟩
          = ⟨DSOCR.pyStrip (g1 ++ g2)⟩)
    ∧ DSOCR.clean_grounding_text
        "  <|grounding|>hello <|ref|>T<|/ref|><|det|>[[1,2,3,4]]<|/det|>  " = "hello T" := by
  refine ⟨fun p L D q hp hL hq => clean_core hp hL hq,
    fun p L1 D1 mid L2 D2 q hp hL1 hq => ?_,
    fun g1 g2 hg1 hg2 => clean_grounding_only hg1 hg2, by decide⟩
  have h := clean_core (D := D1 ++ (']' :: ']' :: (DSOCR.endDetTag ++ (mid ++ (DSOCR.refTag ++ (L2 ++ (DSOCR.endRefTag ++ (DSOCR.detTag ++ ('[' :: '[' :: D2))))))))) hp hL1 hq
  rw [show p ++ (DSOCR.refTag ++ (L1 ++ (DSOCR.endRefTag ++ (DSOCR.detTag ++ ('[' :: '[' :: (D1 ++ (']' :: ']' :: (DSOCR.endDetTag ++ (mid ++ (DSOCR.refTag ++ (L2 ++ (DSOCR.endRefTag ++ (DSOCR.detTag ++ ('[' :: '[' :: (D2 ++ (']' :: ']' :: (DSOCR.endDetTag ++ q)))))))))))))))))
      = p ++ (DSOCR.refTag ++ (L1 ++ (DSOCR.endRefTag ++ (DSOCR.detTag ++ ('[' :: '[' :: ((D1 ++ (']' :: ']' :: (DSOCR.endDetTag ++ (mid ++ (DSOCR.refTag ++ (L2 ++ (DSOCR.endRefTag ++ (DSOCR.detTag ++ ('[' :: '[' :: D2))))))))) ++ (']' :: ']' :: (DSOCR.endDetTag ++ q))))))))
      from by simp [List.append_assoc, List.cons_append]]
  exact h

/-- Witness for C4 at concrete instantiations of all three quantified
conjuncts. -/
theorem C4_clean_behavior_witness :
    DSOCR.clean_grounding_text "x <|ref|>Total<|/ref|><|det|>[[100,200,300,400]]<|/det|> y"
      = "x Total y"
    ∧ DSOCR.clean_grounding_text
        "a <|ref|>L1<|/ref|><|det|>[[1,2],[3,4]]<|/det|> b <|ref|>L2<|/ref|><|det|>[[5,6,7,8]]<|/det|> c"
      = "a L1 c"
    ∧ DSOCR.clean_grounding_text " go <|grounding|>stop " = "go stop" := by
  refine ⟨?_, ?_, ?_⟩
  · have h := C4_clean_behavior.1 "x ".data "Total".data "100,200,300,400".data " y".data
      (by decide) (by decide) (by decide)
    rw [show ("x <|ref|>Total<|/ref|><|det|>[[100,200,300,400]]<|/det|> y" : String)
        = ⟨"x ".data ++ (DSOCR.refTag ++ ("Total".data ++ (DSOCR.endRefTag ++ (DSOCR.detTag ++ ('[' :: '[' :: ("100,200,300,400".data ++ (']' :: ']' :: (DSOCR.endDetTag ++ " y".data))))))))⟩ from by decide]
    rw [h]
    decide
  · have h := C4_clean_behavior.2.1 "a ".data "L1".data "1,2],[3,4".data " b ".data
      "L2".data "5,6,7,8".data " c".data (by decide) (by decide) (by decide)
    rw [show ("a <|ref|>L1<|/ref|><|det|>[[1,2],[3,4]]<|/det|> b <|ref|>L2<|/ref|><|det|>[[5,6,7,8]]<|/det|> c" : String)
        = ⟨"a ".data ++ (DSOCR.refTag ++ ("L1".data ++ (DSOCR.endRefTag ++ (DSOCR.detTag ++ ('[' :: '[' :: ("1,2],[3,4".data ++ (']' :: ']' :: (DSOCR.endDetTag ++ (" b ".data ++ (DSOCR.refTag ++ ("L2".data ++ (DSOCR.endRefTag ++ (DSOCR.detTag ++ ('[' :: '[' :: ("5,6,7,8".data ++ (']' :: ']' :: (DSOCR.endDetTag ++ " c".data)))))))))))))))))⟩ from by decide]
    rw [h]
    decide
  · have h := C4_clean_behavior.2.2.1 " go ".data "stop ".data (by decide) (by decide)
    rw [show (" go <|grounding|>stop " : String) = ⟨" go ".data ++ (DSOCR.groundingTag ++ "stop ".data)⟩ from by decide]
    rw [h]
    decide

/-- The canonical worker output is strictly sorted by page index. -/
theorem renderResults_sorted {α : Type} (render : Nat → α) (n : Nat) :
    List.Sorted (fun a b : Nat × α => a.1 < b.1) (DSOCR.renderResults render n) := by
  unfold DSOCR.renderResults List.Sorted
  rw [List.pairwise_map]
  simpa using List.pairwise_lt_range n

/-- Sorting any permutation of the worker output by page index restores the
canonical page order. -/
theorem sortByPage_restores {α : Type} (render : Nat → α) (n : Nat)
    (completed : List (Nat × α)) (hperm : completed.Perm (DSOCR.renderResults render n)) :
    DSOCR.sortByPage completed = DSOCR.renderResults render n := by
  haveI htot : IsTotal (Nat × α) (fun a b => a.1 ≤ b.1) := ⟨fun a b => Nat.le_total a.1 b.1⟩
  haveI htrans : IsTrans (Nat × α) (fun a b => a.1 ≤ b.1) := ⟨fun _ _ _ => Nat.le_trans⟩
  have hsorted : List.Sorted (fun a b : Nat × α => a.1 ≤ b.1) (DSOCR.sortByPage completed) :=
    List.sorted_insertionSort _ _
  have hsp : (DSOCR.sortByPage completed).Perm (DSOCR.renderResults render n) :=
    (List.perm_insertionSort _ _).trans hperm
  have hkeysnodup : ((DSOCR.sortByPage completed).map Prod.fst).Nodup := by
    have hpmap : ((DSOCR.sortByPage completed).map Prod.fst).Perm
        ((DSOCR.renderResults render n).map Prod.fst) := hsp.map _
    have hcan : (DSOCR.renderResults render n).map Prod.fst = List.range n := by
      unfold DSOCR.renderResults
      have hco : (Prod.fst ∘ fun i : Nat => (i, render i)) = id := rfl
      rw [List.map_map, hco, List.map_id]
    rw [hpmap.nodup_iff, hcan]
    exact List.nodup_range n
  have hne : (DSOCR.sortByPage completed).Pairwise (fun a b : Nat × α => a.1 ≠ b.1) := by
    have hpw := hkeysnodup
    unfold List.Nodup at hpw
    rwa [List.pairwise_map] at hpw
  have hstrict : List.Sorted (fun a b : Nat × α => a.1 < b.1) (DSOCR.sortByPage completed) :=
    (hsorted.and hne).imp (fun h => lt_of_le_of_ne h.1 h.2)
  exact @List.eq_of_perm_of_sorted _ _
    ⟨fun a b h1 h2 => absurd h2 (lt_asymm h1)⟩ _ _ hsp hstrict (renderResults_sorted render n)

/-- C6: `pdf_to_images` returns one image per page, the i-th being the
render of source page i, for any completion order of the worker pool —
because results are sorted by page index before return (one page renders
inline). -/
theorem C6_page_ordering {α : Type} (render : Nat → α) (n : Nat)
    (completed : List (Nat × α)) (hperm : completed.Perm (DSOCR.renderResults render n)) :
    DSOCR.pdf_to_images render n completed = (List.range n).map render
    ∧ (DSOCR.pdf_to_images render n completed).length = n := by
  have key : DSOCR.pdf_to_images render n completed = (List.range n).map render := by
    unfold DSOCR.pdf_to_images
    by_cases h1 : n = 1
    · subst h1
      simp [List.range_succ]
    · rw [if_neg h1, sortByPage_restores render n completed hperm]
      unfold DSOCR.renderResults
      rw [List.map_map]
      rfl
  exact ⟨key, by rw [key]; simp⟩

/-- Witness for C6 at a concrete out-of-order completion. -/
theorem C6_page_ordering_witness :
    ([(2, 20), (0, 0), (1, 10)] : List (Nat × Nat)).Perm (DSOCR.renderResults (fun i => i * 10) 3)
    ∧ DSOCR.pdf_to_images (fun i => i * 10) 3 [(2, 20), (0, 0), (1, 10)] = [0, 10, 20] := by
  have hp : ([(2, 20), (0, 0), (1, 10)] : List (Nat × Nat)).Perm
      (DSOCR.renderResults (fun i => i * 10) 3) := by decide
  exact ⟨hp, ((C6_page_ordering (fun i => i * 10) 3 _ hp).1).trans (by decide)⟩

/-- The multi-page join produces exactly one separator-prefixed segment per
page, in source order. -/
theorem pyJoin_pageSep (f : DSOCR.PageData → String) :
    ∀ (pds : List DSOCR.PageData) (k : Nat),
      DSOCR.pyJoin "\n" ((List.enumFrom k pds).map
        (fun q => "\n--- Page " ++ toString (q.1 + 1) ++ " ---\n" ++ f q.2))
      = SpecSide.pageSepConcat f (k + 1) pds := by
  intro pds
  induction pds with
  | nil => intro k; rfl
  | cons pd rest ih =>
    intro k
    cases rest with
    | nil => rfl
    | cons pd2 rest2 =>
      simp only [List.enumFrom_cons, List.map_cons, DSOCR.pyJoin, SpecSide.pageSepConcat]
      rw [← ih (k + 1)]
      simp only [List.enumFrom_cons, List.map_cons, DSOCR.pyJoin]

/-- Reduction of the aggregator in the multi-page branch. -/
theorem combine_results_multi (rs : List DSOCR.PageResult) (h : rs.length > 1) :
    DSOCR.combine_results true rs = ⟨true,
      DSOCR.pyJoin "\n"
        (rs.map (fun r => "\n--- Page " ++ DSOCR.pageNumStr r.page ++ " ---\n" ++ r.text)),
      DSOCR.pyJoin "\n"
        (rs.map (fun r => "\n--- Page " ++ DSOCR.pageNumStr r.page ++ " ---\n" ++ r.raw_text)),
      [], rs.headI.w, rs.headI.h, true, some rs⟩ := by
  unfold DSOCR.combine_results
  simp [h]

/-- C7: aggregating a multi-page PDF result joins the page texts with one
page-number separator per page, in order 1..N, each prefixing that page's
text (display and raw alike); the top-level detections are empty; the full
page sequence with its per-page detections is retained; and the reported
dimensions are the first page's. -/
theorem C7_multipage_aggregation (pds : List DSOCR.PageData) (h2 : 2 ≤ pds.length) :
    (DSOCR.combine_results true (DSOCR.make_page_results true pds)).text
      = SpecSide.pageSepConcat (fun pd => pd.text) 1 pds
    ∧ (DSOCR.combine_results true (DSOCR.make_page_results true pds)).raw_text
      = SpecSide.pageSepConcat (fun pd => pd.raw_text) 1 pds
    ∧ (DSOCR.combine_results true (DSOCR.make_page_results true pds)).boxes = []
    ∧ (DSOCR.combine_results true (DSOCR.make_page_results true pds)).pages
      = some (DSOCR.make_page_results true pds)
    ∧ (DSOCR.make_page_results true pds).map (fun r => r.boxes) = pds.map (fun pd => pd.boxes)
    ∧ (DSOCR.combine_results true (DSOCR.make_page_results true pds)).w = pds.headI.w
    ∧ (DSOCR.combine_results true (DSOCR.make_page_results true pds)).h = pds.headI.h := by
  have hlen : (DSOCR.make_page_results true pds).length = pds.length := by
    simp [DSOCR.make_page_results]
  have hgt : (DSOCR.make_page_results true pds).length > 1 := by omega
  have hred := combine_results_multi (DSOCR.make_page_results true pds) hgt
  have htext : (DSOCR.make_page_results true pds).map
      (fun r => "\n--- Page " ++ DSOCR.pageNumStr r.page ++ " ---\n" ++ r.text)
      = (List.enumFrom 0 pds).map
          (fun q => "\n--- Page " ++ toString (q.1 + 1) ++ " ---\n" ++ q.2.text) := by
    unfold DSOCR.make_page_results
    rw [List.map_map]
    rfl
  have hraw : (DSOCR.make_page_results true pds).map
      (fun r => "\n--- Page " ++ DSOCR.pageNumStr r.page ++ " ---\n" ++ r.raw_text)
      = (List.enumFrom 0 pds).map
          (fun q => "\n--- Page " ++ toString (q.1 + 1) ++ " ---\n" ++ q.2.raw_text) := by
    unfold DSOCR.make_page_results
    rw [List.map_map]
    rfl
  have hhead : (DSOCR.make_page_results true pds).headI.w = pds.headI.w
      ∧ (DSOCR.make_page_results true pds).headI.h = pds.headI.h := by
    cases pds with
    | nil => simp at h2
    | cons pd rest => exact ⟨rfl, rfl⟩
  refine ⟨?_, ?_, ?_, ?_, ?_, ?_, ?_⟩
  · rw [hred]
    show DSOCR.pyJoin "\n" _ = _
    rw [htext]
    simpa using pyJoin_pageSep (fun pd => pd.text) pds 0
  · rw [hred]
    show DSOCR.pyJoin "\n" _ = _
    rw [hraw]
    simpa using pyJoin_pageSep (fun pd => pd.raw_text) pds 0
  · rw [hred]
  · rw [hred]
  · unfold DSOCR.make_page_results
    rw [List.map_map]
    have hco : ((fun r : DSOCR.PageResult => r.boxes) ∘ fun p : Nat × DSOCR.PageData =>
        (⟨if true = true then some (p.1 + 1) else none, p.2.text, p.2.raw_text, p.2.boxes,
          p.2.w, p.2.h⟩ : DSOCR.PageResult))
        = (fun pd : DSOCR.PageData => pd.boxes) ∘ Prod.snd := rfl
    rw [hco, ← List.map_map, List.enum_map_snd]
  · rw [hred]
    exact hhead.1
  · rw [hred]
    exact hhead.2

/-- Witness for C7 with three concrete pages. -/
theorem C7_multipage_aggregation_witness :
    2 ≤ ([⟨"a", "ra", [], 5, 6⟩, ⟨"b", "rb", [⟨"L", [1, 2, 3, 4]⟩], 7, 8⟩,
      ⟨"c", "rc", [], 9, 10⟩] : List DSOCR.PageData).length
    ∧ (DSOCR.combine_results true (DSOCR.make_page_results true
        [⟨"a", "ra", [], 5, 6⟩, ⟨"b", "rb", [⟨"L", [1, 2, 3, 4]⟩], 7, 8⟩,
          ⟨"c", "rc", [], 9, 10⟩])).text
      = SpecSide.pageSepConcat (fun pd => pd.text) 1
          [⟨"a", "ra", [], 5, 6⟩, ⟨"b", "rb", [⟨"L", [1, 2, 3, 4]⟩], 7, 8⟩,
            ⟨"c", "rc", [], 9, 10⟩] := by
  refine ⟨by decide, ?_⟩
  exact (C7_multipage_aggregation
    [⟨"a", "ra", [], 5, 6⟩, ⟨"b", "rb", [⟨"L", [1, 2, 3, 4]⟩], 7, 8⟩, ⟨"c", "rc", [], 9, 10⟩]
    (by decide)).1

/-- C8 counterexample: a single-page PDF result still reports the flag as
`true` (the JSON field records PDF origin, not multi-page origin), so the
claimed `false` multi-page flag is refuted for single-page PDFs. -/
theorem C8_counterexample :
    (DSOCR.combine_results true
      (DSOCR.make_page_results true [⟨"t", "r", [], 10, 20⟩])).is_pdf = true
    ∧ true ≠ false :=
  ⟨by decide, by decide⟩

/-- C8 amended: for a single page result the response passes the page's
display text, raw text, detections and dimensions through unchanged and
omits the per-page sequence; the flag equals whether the source was a PDF —
`false` for a non-PDF image but `true` for a single-page PDF. -/
theorem C8_single_page_passthrough (b : Bool) (pd : DSOCR.PageData) :
    (DSOCR.combine_results b (DSOCR.make_page_results b [pd])).text = pd.text
    ∧ (DSOCR.combine_results b (DSOCR.make_page_results b [pd])).raw_text = pd.raw_text
    ∧ (DSOCR.combine_results b (DSOCR.make_page_results b [pd])).boxes = pd.boxes
    ∧ (DSOCR.combine_results b (DSOCR.make_page_results b [pd])).w = pd.w
    ∧ (DSOCR.combine_results b (DSOCR.make_page_results b [pd])).h = pd.h
    ∧ (DSOCR.combine_results b (DSOCR.make_page_results b [pd])).is_pdf = b
    ∧ (DSOCR.combine_results b (DSOCR.make_page_results b [pd])).pages = none := by
  have hmk : DSOCR.make_page_results b [pd]
      = [⟨if b = true then some 1 else none, pd.text, pd.raw_text, pd.boxes, pd.w, pd.h⟩] := by
    simp [DSOCR.make_page_results]
  rw [hmk]
  unfold DSOCR.combine_results
  simp

/-- Definitional unfolding of `pyJoin` on a list with two known heads. -/
theorem pyJoin_cons_cons (sep a b : String) (L : List String) :
    DSOCR.pyJoin sep (a :: b :: L) = a ++ sep ++ DSOCR.pyJoin sep (b :: L) := rfl

/-- The Markdown export body joins, per page, a title line, the page text
and a trailing `---` marker — also after the final page. -/
theorem to_markdown_shape (inc : Bool) :
    ∀ (pages : List DSOCR.ExportPage) (k : Nat),
      DSOCR.pyJoin "\n" (((List.enumFrom k pages).map (fun q =>
        ["# Page " ++ toString (q.1 + 1) ++ "\n", DSOCR.mdSubstText inc q.2,
          "\n\n---\n\n"])).flatten)
      = SpecSide.mdPagesShape inc (k + 1) pages := by
  intro pages
  induction pages with
  | nil => intro k; rfl
  | cons p rest ih =>
    intro k
    cases rest with
    | nil =>
      simp only [List.enumFrom_cons, List.map_cons, List.map_nil, List.flatten_cons,
        List.flatten_nil, List.append_nil, DSOCR.pyJoin, SpecSide.mdPagesShape,
        String.append_assoc]
    | cons p2 rest2 =>
      have ih1 := ih (k + 1)
      simp only [List.enumFrom_cons, List.map_cons, List.flatten_cons, List.cons_append,
        List.nil_append] at ih1
      simp only [List.enumFrom_cons, List.map_cons, List.flatten_cons, List.cons_append,
        List.nil_append]
      rw [pyJoin_cons_cons, pyJoin_cons_cons, pyJoin_cons_cons, ih1]
      simp only [SpecSide.mdPagesShape, String.append_assoc]

/-- The DOCX export body emits, per page, a heading and the page's blocks,
and a page break exactly between consecutive pages. -/
theorem to_docx_shape (decodeOk : String → Bool) (inc : Bool) (L : Nat) :
    ∀ (rest : List DSOCR.ExportPage) (k : Nat), k + rest.length = L →
      ((List.enumFrom k rest).map (fun q =>
        DSOCR.DocxBlock.heading 1 ("Page " ++ toString (q.1 + 1)) ::
          (DSOCR.docxPageBody decodeOk inc q.2 ++
            (if q.1 + 1 < L then [DSOCR.DocxBlock.pageBreak] else [])))).flatten
      = SpecSide.docxPagesShape decodeOk inc (k + 1) rest := by
  intro rest
  induction rest with
  | nil => intro k _; rfl
  | cons p rest2 ih =>
    intro k hk
    cases rest2 with
    | nil =>
      have hlt : ¬(k + 1 < L) := by simp at hk; omega
      simp only [List.enumFrom_cons, List.enumFrom_nil, List.map_cons, List.map_nil,
        List.flatten_cons, List.flatten_nil, List.append_nil, SpecSide.docxPagesShape,
        if_neg hlt]
    | cons p2 rest3 =>
      have hlt : k + 1 < L := by simp at hk; omega
      have ih1 := ih (k + 1) (by simp at hk ⊢; omega)
      simp only [List.enumFrom_cons, List.map_cons, List.flatten_cons] at ih1 ⊢
      rw [ih1]
      simp only [SpecSide.docxPagesShape, if_pos hlt, List.append_assoc, List.cons_append,
        List.nil_append]

/-- The HTML export body wraps every page in a `div` with an `h2` title. -/
theorem to_html_shape (mdR : String → String) (inc : Bool) :
    ∀ (pages : List DSOCR.ExportPage) (k : Nat),
      ((List.enumFrom k pages).map (fun q =>
        ["    <div class=\"page\">",
         "        <h2 class=\"page-header\">Page " ++ toString (q.1 + 1) ++ "</h2>",
         "        " ++ DSOCR.htmlContent mdR inc q.2,
         "    </div>"])).flatten
      = SpecSide.htmlPagesShape mdR inc (k + 1) pages := by
  intro pages
  induction pages with
  | nil => intro k; rfl
  | cons p rest ih =>
    intro k
    simp only [List.enumFrom_cons, List.map_cons, List.flatten_cons, ih (k + 1),
      SpecSide.htmlPagesShape, List.cons_append, List.nil_append]

/-- C9 counterexample: the Markdown export emits its page separator after
every page including the last — the export of a single page ends in the
separator, refuting the claim that no page-boundary marker follows the final
page in all three formats. -/
theorem C9_counterexample :
    DSOCR.to_markdown [⟨"hello", none⟩] true = "# Page 1\n\nhello\n\n\n---\n\n"
    ∧ List.IsSuffix "\n\n---\n\n".data "# Page 1\n\nhello\n\n\n---\n\n".data :=
  ⟨by decide, by decide⟩

/-- C9 amended: in every export each page is wrapped in a titled per-page
section; the DOCX export places a page break after every page except the
final one, while the Markdown export places its `---` page marker after
every page including the final one (the HTML export separates pages only by
their wrapping `div` sections). -/
theorem C9_page_sections (pages : List DSOCR.ExportPage) (decodeOk : String → Bool)
    (mdR : String → String) (inc : Bool) :
    DSOCR.to_markdown pages inc = SpecSide.mdPagesShape inc 1 pages
    ∧ DSOCR.to_docx decodeOk pages inc
        = DSOCR.DocxBlock.title "DeepSeek OCR Results"
            :: SpecSide.docxPagesShape decodeOk inc 1 pages
    ∧ DSOCR.to_html mdR pages inc
        = DSOCR.pyJoin "\n"
            ([DSOCR.htmlHeader] ++ SpecSide.htmlPagesShape mdR inc 1 pages
              ++ [DSOCR.htmlFooter]) := by
  refine ⟨?_, ?_, ?_⟩
  · exact to_markdown_shape inc pages 0
  · exact congrArg (fun x => DSOCR.DocxBlock.title "DeepSeek OCR Results" :: x)
      (to_docx_shape decodeOk inc pages.length pages 0 (by simp))
  · exact congrArg
      (fun x => DSOCR.pyJoin "\n" ([DSOCR.htmlHeader] ++ x ++ [DSOCR.htmlFooter]))
      (to_html_shape mdR inc pages 0)

/-- Every element of the joined list occurs verbatim inside the join. -/
theorem pyJoin_infix (sep : String) :
    ∀ (L : List String) (s : String), s ∈ L → List.IsInfix s.data (DSOCR.pyJoin sep L).data := by
  intro L
  induction L with
  | nil => intro s h; simp at h
  | cons a rest ih =>
    intro s h
    rcases List.mem_cons.mp h with rfl | hmem
    · cases rest with
      | nil => exact ⟨[], [], by simp [DSOCR.pyJoin]⟩
      | cons b t =>
        refine ⟨[], sep.data ++ (DSOCR.pyJoin sep (b :: t)).data, ?_⟩
        rw [pyJoin_cons_cons]
        simp [String.data_append]
    · cases rest with
      | nil => simp at hmem
      | cons b t =>
        refine (ih s hmem).trans ?_
        rw [pyJoin_cons_cons]
        refine ⟨(a ++ sep).data, [], ?_⟩
        simp [String.data_append]

/-- Membership in an enumeration. -/
theorem mem_enumFrom_of_mem {α : Type} {a : α} :
    ∀ {l : List α} (k : Nat), a ∈ l → ∃ i, (i, a) ∈ List.enumFrom k l := by
  intro l
  induction l with
  | nil => intro k h; simp at h
  | cons b rest ih =>
    intro k h
    rcases List.mem_cons.mp h with rfl | hmem
    · exact ⟨k, by simp [List.enumFrom_cons]⟩
    · obtain ⟨i, hi⟩ := ih (k + 1) hmem
      exact ⟨i, by simp [List.enumFrom_cons, hi]⟩

/-- With no `images` key the substitution step passes the text through. -/
theorem htmlSubstText_none (inc : Bool) (t : String) :
    DSOCR.htmlSubstText inc ⟨t, none⟩ = t := by
  cases inc <;> rfl

/-- The content line of a page is an infix of the whole HTML document. -/
theorem htmlContentLine_infix (mdR : String → String) (pages : List DSOCR.ExportPage)
    (inc : Bool) (p : DSOCR.ExportPage) (hp : p ∈ pages) :
    List.IsInfix ("        " ++ DSOCR.htmlContent mdR inc p).data
      (DSOCR.to_html mdR pages inc).data := by
  obtain ⟨i, hi⟩ := mem_enumFrom_of_mem 0 hp
  apply pyJoin_infix
  rw [List.mem_append]
  left
  rw [List.mem_append]
  right
  rw [List.mem_flatten]
  refine ⟨["    <div class=\"page\">",
    "        <h2 class=\"page-header\">Page " ++ toString (i + 1) ++ "</h2>",
    "        " ++ DSOCR.htmlContent mdR inc p,
    "    </div>"], ?_, by simp⟩
  rw [List.mem_map]
  exact ⟨(i, p), hi, rfl⟩

/-- C10: in HTML export, a page whose text matches none of the Markdown cue
patterns is embedded verbatim and unescaped whenever it contains a `<`
character, and only `<`-free text is wrapped in a paragraph element with
newlines converted to `<br>` line breaks. -/
theorem C10_html_passthrough (mdR : String → String) (pages : List DSOCR.ExportPage)
    (p : DSOCR.ExportPage) (hp : p ∈ pages) (himg : p.images = none)
    (hmd : DSOCR.is_markdown p.text = false) :
    (DSOCR.containsSub "<".data p.text.data = true →
      List.IsInfix p.text.data (DSOCR.to_html mdR pages true).data)
    ∧ (DSOCR.containsSub "<".data p.text.data = false →
      List.IsInfix
        ("<p>" ++ (⟨DSOCR.replaceAll "\n".data "<br>".data p.text.data⟩ : String) ++ "</p>").data
        (DSOCR.to_html mdR pages true).data) := by
  have hpage : p = ⟨p.text, none⟩ := by
    cases p with
    | mk t im => cases himg; rfl
  have hsubst : DSOCR.htmlSubstText true p = p.text := by
    rw [hpage]
    exact htmlSubstText_none true p.text
  have hline := htmlContentLine_infix mdR pages true p hp
  constructor
  · intro hlt
    have hcontent : DSOCR.htmlContent mdR true p = p.text := by
      unfold DSOCR.htmlContent
      rw [hsubst, hmd, if_neg (by simp)]
      rw [if_pos hlt]
    rw [hcontent] at hline
    refine List.IsInfix.trans ?_ hline
    exact ⟨"        ".data, [], by simp [String.data_append]⟩
  · intro hlt
    have hcontent : DSOCR.htmlContent mdR true p
        = "<p>" ++ (⟨DSOCR.replaceAll "\n".data "<br>".data p.text.data⟩ : String) ++ "</p>" := by
      unfold DSOCR.htmlContent
      rw [hsubst, hmd, if_neg (by simp)]
      rw [if_neg (by simp [hlt])]
    rw [hcontent] at hline
    refine List.IsInfix.trans ?_ hline
    exact ⟨"        ".data, [], by simp [String.data_append]⟩

/-- Witness for C10 at a concrete page containing raw markup. -/
theorem C10_html_passthrough_witness :
    (⟨"a <b>c</b>", none⟩ : DSOCR.ExportPage) ∈ [(⟨"a <b>c</b>", none⟩ : DSOCR.ExportPage)]
    ∧ DSOCR.is_markdown "a <b>c</b>" = false
    ∧ DSOCR.containsSub "<".data "a <b>c</b>".data = true
    ∧ List.IsInfix "a <b>c</b>".data
        (DSOCR.to_html (fun s => s) [⟨"a <b>c</b>", none⟩] true).data := by
  refine ⟨by decide, by decide, by decide, ?_⟩
  exact (C10_html_passthrough (fun s => s) [⟨"a <b>c</b>", none⟩] ⟨"a <b>c</b>", none⟩
    (by decide) rfl (by decide)).1 (by decide)
